import Mathlib

/-!
Verification of the authoritative multiplayer server in `src/server/main.py`.

The model is a shallow embedding: the world constants and the pure parts of
the code (clamping, velocity computation, position integration, the player
record built by `connect`) become Lean functions over the real numbers, the
Python dictionaries `Hub.players` and `Hub.sockets` become association lists
with insert-or-replace and pop operations mirroring dict semantics, and the
effectful structure of each `Hub` coroutine (lock acquisition, world-state
access, serialization, network sends) is recorded as an explicit event trace
read off the statement order of the source.
-/

namespace MPServer

/-- World constant `TILE_SIZE` (main.py line 39). -/
def TILE_SIZE : ℕ := 48

/-- World constant `MAP_COLS` (main.py line 40). -/
def MAP_COLS : ℕ := 20

/-- World constant `MAP_ROWS` (main.py line 41). -/
def MAP_ROWS : ℕ := 12

/-- World constant `WORLD_WIDTH = MAP_COLS * TILE_SIZE` (main.py line 42). -/
def WORLD_WIDTH : ℕ := MAP_COLS * TILE_SIZE

/-- World constant `WORLD_HEIGHT = MAP_ROWS * TILE_SIZE` (main.py line 43). -/
def WORLD_HEIGHT : ℕ := MAP_ROWS * TILE_SIZE

/-- World constant `PLAYER_SIZE` (main.py line 44). -/
def PLAYER_SIZE : ℕ := 30

/-- Default player speed in px/s, `DEFAULT_PLAYER_SPEED` (main.py line 45). -/
def DEFAULT_PLAYER_SPEED : ℝ := 220

/-- Helper `_clamp(v, vmin, vmax) = max(vmin, min(vmax, v))` (main.py lines 53-55). -/
noncomputable def _clamp (v vmin vmax : ℝ) : ℝ := max vmin (min vmax v)

/-- The `InputState` dataclass: four boolean movement flags, all defaulting to
false (main.py lines 70-77). -/
structure InputState where
  up : Bool := false
  down : Bool := false
  left : Bool := false
  right : Bool := false
deriving Repr, DecidableEq

/-- The `Player` dataclass (main.py lines 80-90): identity, position, speed,
display attributes and owned input state.  Python floats are modelled as real
numbers. -/
structure Player where
  id : String
  x : ℝ
  y : ℝ
  speed : ℝ := DEFAULT_PLAYER_SPEED
  label : String := "P"
  color : String := "#2563eb"
  input : InputState := {}

/-- Velocity computed by `Player.integrate` from the input flags and speed
(main.py lines 98-113): each of the four flags adds or subtracts `speed` on
its axis, and when both resulting components are non-zero each is scaled by
`1 / sqrt 2`. -/
noncomputable def velocity (inp : InputState) (speed : ℝ) : ℝ × ℝ :=
  let vx0 : ℝ := 0
  let vy0 : ℝ := 0
  let vx1 := if inp.left then vx0 - speed else vx0
  let vx2 := if inp.right then vx1 + speed else vx1
  let vy1 := if inp.up then vy0 - speed else vy0
  let vy2 := if inp.down then vy1 + speed else vy1
  if vx2 ≠ 0 ∧ vy2 ≠ 0 then
    let inv := 1 / Real.sqrt 2
    (vx2 * inv, vy2 * inv)
  else
    (vx2, vy2)

/-- `Player.integrate(dt)` (main.py lines 92-120): move by velocity times `dt`
and clamp each axis independently into the world bounds. -/
noncomputable def integrate (p : Player) (dt : ℝ) : Player :=
  let v := velocity p.input p.speed
  let nx := p.x + v.1 * dt
  let ny := p.y + v.2 * dt
  { p with
    x := _clamp nx 0 ((WORLD_WIDTH : ℝ) - (PLAYER_SIZE : ℝ)),
    y := _clamp ny 0 ((WORLD_HEIGHT : ℝ) - (PLAYER_SIZE : ℝ)) }

/-- The `Player` built by `Hub.connect` (main.py lines 210-220), parameterised
over the outcomes of the random draws: the id from `_rand_id()`, the two
`random.random()` results `rx, ry` in `[0, 1)`, and the palette color. -/
noncomputable def connectPlayer (pid : String) (rx ry : ℝ) (color : String) : Player :=
  { id := pid
    x := rx * ((WORLD_WIDTH : ℝ) - (PLAYER_SIZE : ℝ))
    y := ry * ((WORLD_HEIGHT : ℝ) - (PLAYER_SIZE : ℝ))
    label := "P" ++ (pid.take 2).toUpper
    color := color
    input := {} }

/-- Opaque handle standing for a `WebSocket` connection object. -/
abbrev Socket := ℕ

/-- Python dict assignment `m[k] = v` on a dict modelled as an association
list: if the key is present its value is replaced in place, otherwise the new
binding is appended (preserving dict insertion order). -/
def dictSet {α : Type} (m : List (String × α)) (k : String) (v : α) :
    List (String × α) :=
  if (m.map Prod.fst).contains k then
    m.map (fun kv => if kv.1 = k then (k, v) else kv)
  else
    m ++ [(k, v)]

/-- Python `m.pop(k, None)`: remove the binding for `k` when present. -/
def dictPop {α : Type} (m : List (String × α)) (k : String) :
    List (String × α) :=
  m.filter (fun kv => kv.1 ≠ k)

/-- Python `m.get(k)`: the value bound to `k`, if any. -/
def dictGet {α : Type} (m : List (String × α)) (k : String) : Option α :=
  (m.find? (fun kv => kv.1 = k)).map Prod.snd

/-- The mutable state owned by `Hub` (main.py lines 144-149): the `players`
dict and the `sockets` dict, both keyed by player id. -/
structure Hub where
  players : List (String × Player)
  sockets : List (String × Socket)

/-- `Hub.__init__` (main.py lines 144-149): both dicts start empty. -/
def Hub.init : Hub := { players := [], sockets := [] }

/-- The state effect of `Hub.connect` (main.py lines 221-223): register the
freshly built player and its websocket under the id drawn by `_rand_id()`.
The random draws are parameters, as in `connectPlayer`. -/
noncomputable def Hub.connect (h : Hub) (pid : String) (rx ry : ℝ)
    (color : String) (ws : Socket) : Hub :=
  { players := dictSet h.players pid (connectPlayer pid rx ry color)
    sockets := dictSet h.sockets pid ws }

/-- The state effect of `Hub.disconnect` (main.py lines 241-243): pop the
player and its socket, absent keys being left as a no-op by `pop(_, None)`. -/
def Hub.disconnect (h : Hub) (pid : String) : Hub :=
  { players := dictPop h.players pid
    sockets := dictPop h.sockets pid }

/-- An inbound client message as seen by `Hub.handle_message`: the results of
`data.get("type")`, `data.get("id")` and the boolean coercions of the four
flag lookups.  A `none` field models an absent key; `bool(data.get(f))` is
`Option.getD false` on the flag fields. -/
structure Msg where
  mtype : Option String
  mid : Option String
  up : Option Bool
  down : Option Bool
  left : Option Bool
  right : Option Bool
deriving Repr, DecidableEq

/-- `Hub.handle_message(pid, data)` (main.py lines 257-272): ignore anything
that is not an `input` message claiming the caller id for a still-registered
player; otherwise overwrite all four input flags of that player with the
boolean coercions of the message fields. -/
def Hub.handle_message (h : Hub) (pid : String) (data : Msg) : Hub :=
  if data.mtype ≠ some "input" then h
  else if data.mid ≠ some pid then h
  else
    match dictGet h.players pid with
    | none => h
    | some p =>
        let p2 : Player :=
          { p with
            input :=
              { up := data.up.getD false
                down := data.down.getD false
                left := data.left.getD false
                right := data.right.getD false } }
        { h with players := dictSet h.players pid p2 }

/-- Outcome of a raw `ws.send_text` call: either it returns or it raises.
The behaviour of each socket is a parameter `fails`. -/
def send (fails : Socket → Bool) (ws : Socket) : Except String Unit :=
  if fails ws then Except.error "send failed" else Except.ok ()

/-- `Hub._safe_send` (main.py lines 200-205): attempt the send and swallow
every exception (`except Exception: pass`), so it always returns normally. -/
def _safe_send (fails : Socket → Bool) (ws : Socket) : Except String Unit :=
  match send fails ws with
  | Except.ok _ => Except.ok ()
  | Except.error _ => Except.ok ()

/-- `Hub._broadcast_state` (main.py lines 187-198): the world state is not
modified, and one `_safe_send` attempt is made for every registered socket
(`asyncio.gather` over `self.sockets.values()`), dead sockets being dropped
silently.  Returns the unchanged hub together with the list of per-socket
send attempts and their outcomes. -/
def Hub.broadcast_state (fails : Socket → Bool) (h : Hub) :
    Hub × List (Socket × Except String Unit) :=
  (h, h.sockets.map (fun kv => (kv.2, _safe_send fails kv.2)))

/-- A Python runtime error relevant to this module. -/
inductive PyErr where
  | nameError (n : String)
deriving Repr, DecidableEq

/-- Names bound at module top level by the import statements
(main.py lines 25-36).  `contextlib` is not among them. -/
def importedNames : List String :=
  ["asyncio", "json", "math", "os", "random", "string", "time",
   "dataclass", "field", "asdict",
   "Dict", "Set", "Tuple", "Optional", "List",
   "FastAPI", "WebSocket", "WebSocketDisconnect", "HTMLResponse"]

/-- `Hub.stop` (main.py lines 156-162), modelled on the task handle
`_tick_task`.  When a task is running the code cancels it and then evaluates
`contextlib.suppress(...)`; evaluating the name `contextlib` looks it up among
the module bindings and raises `NameError` when absent, in which case the
handle is never cleared.  On success the handle is cleared to `None`. -/
def Hub.stop (task? : Option Unit) : Except PyErr (Option Unit) :=
  match task? with
  | some _ =>
      if importedNames.contains "contextlib" then Except.ok none
      else Except.error (PyErr.nameError "contextlib")
  | none => Except.ok none

/-- Events performed by a `Hub` coroutine, in program order: acquiring and
releasing `self.lock`, reading or mutating the shared `players`/`sockets`
dicts, serializing a snapshot (`json.dumps` over world data), and network
I/O (`accept`, `send_text`, awaiting a gather of sends). -/
inductive Ev where
  | acquire
  | release
  | readWorld
  | mutateWorld
  | serialize
  | netSend
deriving Repr, DecidableEq

/-- Event trace of `Hub._step` (main.py lines 181-185): `async with self.lock`
around reading `self.players.values()` and mutating every player. -/
def stepTrace : List Ev :=
  [Ev.acquire, Ev.readWorld, Ev.mutateWorld, Ev.release]

/-- Event trace of `Hub._broadcast_state` (main.py lines 187-198): the
snapshot is built from `self.players.values()` and serialized with
`json.dumps` with no `async with self.lock` anywhere in the method, then the
sends are gathered; `self.sockets.values()` is also read lock-free. -/
def broadcastStateTrace : List Ev :=
  [Ev.readWorld, Ev.serialize, Ev.readWorld, Ev.netSend]

/-- Event trace of `Hub.connect` (main.py lines 207-237): `ws.accept()`, then
registration of player and socket under the lock, then the welcome snapshot
is built from `self.players.values()` and serialized outside the lock, sent,
and the join event is broadcast (which reads `self.sockets` lock-free). -/
def connectTrace : List Ev :=
  [Ev.netSend, Ev.acquire, Ev.mutateWorld, Ev.release,
   Ev.readWorld, Ev.serialize, Ev.netSend, Ev.readWorld, Ev.netSend]

/-- Event trace of `Hub.disconnect` (main.py lines 239-244): both pops under
the lock, then the leave event broadcast reading `self.sockets` lock-free. -/
def disconnectTrace : List Ev :=
  [Ev.acquire, Ev.mutateWorld, Ev.release, Ev.readWorld, Ev.netSend]

/-- Event trace of `Hub.handle_message` (main.py lines 257-272) on the path
that touches world state: lookup and input overwrite under the lock, no
network I/O at all. -/
def handleMessageTrace : List Ev :=
  [Ev.acquire, Ev.readWorld, Ev.mutateWorld, Ev.release]

/-- Does every world-state access (read, mutation, and serialization of world
data) in the trace happen while the lock is held?  `d` is the current lock
depth. -/
def worldAccessLocked (d : ℕ) : List Ev → Bool
  | [] => true
  | Ev.acquire :: tr => worldAccessLocked (d + 1) tr
  | Ev.release :: tr => worldAccessLocked (d - 1) tr
  | Ev.readWorld :: tr => decide (0 < d) && worldAccessLocked d tr
  | Ev.mutateWorld :: tr => decide (0 < d) && worldAccessLocked d tr
  | Ev.serialize :: tr => decide (0 < d) && worldAccessLocked d tr
  | Ev.netSend :: tr => worldAccessLocked d tr

/-- Does every world-state mutation in the trace happen while the lock is
held? -/
def mutationsLocked (d : ℕ) : List Ev → Bool
  | [] => true
  | Ev.acquire :: tr => mutationsLocked (d + 1) tr
  | Ev.release :: tr => mutationsLocked (d - 1) tr
  | Ev.mutateWorld :: tr => decide (0 < d) && mutationsLocked d tr
  | _ :: tr => mutationsLocked d tr

/-- Is every network send in the trace performed while the lock is free? -/
def sendsOutsideLock (d : ℕ) : List Ev → Bool
  | [] => true
  | Ev.acquire :: tr => sendsOutsideLock (d + 1) tr
  | Ev.release :: tr => sendsOutsideLock (d - 1) tr
  | Ev.netSend :: tr => decide (d = 0) && sendsOutsideLock d tr
  | _ :: tr => sendsOutsideLock d tr

/-- The traces of the five `Hub` operations that touch world state. -/
def hubTraces : List (List Ev) :=
  [stepTrace, broadcastStateTrace, connectTrace, disconnectTrace,
   handleMessageTrace]

/-- Velocity as worded by the specification (§4.1), for comparison with the
source-derived `velocity`: the horizontal component is `-speed` when only
`left` is set, `+speed` when only `right` is set, and zero when both or
neither are set; vertical analogously; both components scaled by
`1 / sqrt 2` when both are non-zero. -/
noncomputable def velocitySpec (inp : InputState) (speed : ℝ) : ℝ × ℝ :=
  let vx : ℝ :=
    if inp.left ∧ ¬ inp.right then -speed
    else if inp.right ∧ ¬ inp.left then speed
    else 0
  let vy : ℝ :=
    if inp.up ∧ ¬ inp.down then -speed
    else if inp.down ∧ ¬ inp.up then speed
    else 0
  if vx ≠ 0 ∧ vy ≠ 0 then
    (vx * (1 / Real.sqrt 2), vy * (1 / Real.sqrt 2))
  else
    (vx, vy)

/-- Position update as worded by the specification (§4.1): old position plus
`velocitySpec` times `dt`, clamped independently per axis. -/
noncomputable def integrateSpec (p : Player) (dt : ℝ) : Player :=
  let v := velocitySpec p.input p.speed
  { p with
    x := _clamp (p.x + v.1 * dt) 0 ((WORLD_WIDTH : ℝ) - (PLAYER_SIZE : ℝ)),
    y := _clamp (p.y + v.2 * dt) 0 ((WORLD_HEIGHT : ℝ) - (PLAYER_SIZE : ℝ)) }

/-- The clamping invariant on a player position (spec §3 and §8). -/
def InBounds (p : Player) : Prop :=
  0 ≤ p.x ∧ p.x ≤ (WORLD_WIDTH : ℝ) - (PLAYER_SIZE : ℝ) ∧
  0 ≤ p.y ∧ p.y ≤ (WORLD_HEIGHT : ℝ) - (PLAYER_SIZE : ℝ)

/-- The lockstep structural invariant on the hub (spec §3, World): the
`players` and `sockets` dicts have the same keys in the same order, and the
keys are unique, so each id maps to exactly one player and at most one
socket. -/
def WF (h : Hub) : Prop :=
  h.players.map Prod.fst = h.sockets.map Prod.fst ∧
  (h.players.map Prod.fst).Nodup

/-! Helper lemmas. -/

/-- The clamp result is at least the lower bound. -/
lemma clamp_lower (v vmin vmax : ℝ) : vmin ≤ _clamp v vmin vmax :=
  le_max_left _ _

/-- When the bounds are ordered, the clamp result is at most the upper
bound. -/
lemma clamp_upper (v vmin vmax : ℝ) (h : vmin ≤ vmax) :
    _clamp v vmin vmax ≤ vmax :=
  max_le h (min_le_left _ _)

/-- The horizontal clamp range of the world is non-degenerate. -/
lemma width_sub_nonneg : (0 : ℝ) ≤ (WORLD_WIDTH : ℝ) - (PLAYER_SIZE : ℝ) := by
  norm_num [WORLD_WIDTH, PLAYER_SIZE, MAP_COLS, TILE_SIZE]

/-- The vertical clamp range of the world is non-degenerate. -/
lemma height_sub_nonneg : (0 : ℝ) ≤ (WORLD_HEIGHT : ℝ) - (PLAYER_SIZE : ℝ) := by
  norm_num [WORLD_HEIGHT, PLAYER_SIZE, MAP_ROWS, TILE_SIZE]

/-! Claim C1. -/

/-- C1: for every player and every `integrate(dt)` call, the resulting
position lies in `[0, WORLD_WIDTH - PLAYER_SIZE] x [0, WORLD_HEIGHT -
PLAYER_SIZE]` whatever the prior position, flags, speed or `dt`; and every
player created by `connect()` (whose `random.random()` draws lie in `[0,1)`)
starts inside the same bounds. -/
theorem c1_bounds_invariant (p : Player) (dt : ℝ) (pid color : String)
    (rx ry : ℝ) (hrx0 : 0 ≤ rx) (hrx1 : rx < 1) (hry0 : 0 ≤ ry)
    (hry1 : ry < 1) :
    InBounds (integrate p dt) ∧ InBounds (connectPlayer pid rx ry color) := by
  constructor
  · refine ⟨clamp_lower _ _ _, clamp_upper _ _ _ width_sub_nonneg,
      clamp_lower _ _ _, clamp_upper _ _ _ height_sub_nonneg⟩
  · refine ⟨mul_nonneg hrx0 width_sub_nonneg, ?_,
      mul_nonneg hry0 height_sub_nonneg, ?_⟩
    · calc rx * ((WORLD_WIDTH : ℝ) - (PLAYER_SIZE : ℝ))
          ≤ 1 * ((WORLD_WIDTH : ℝ) - (PLAYER_SIZE : ℝ)) :=
            mul_le_mul_of_nonneg_right (le_of_lt hrx1) width_sub_nonneg
        _ = (WORLD_WIDTH : ℝ) - (PLAYER_SIZE : ℝ) := one_mul _
    · calc ry * ((WORLD_HEIGHT : ℝ) - (PLAYER_SIZE : ℝ))
          ≤ 1 * ((WORLD_HEIGHT : ℝ) - (PLAYER_SIZE : ℝ)) :=
            mul_le_mul_of_nonneg_right (le_of_lt hry1) height_sub_nonneg
        _ = (WORLD_HEIGHT : ℝ) - (PLAYER_SIZE : ℝ) := one_mul _

/-- Witness for C1 at a concrete player and concrete random draws. -/
theorem c1_bounds_invariant_witness :
    InBounds (integrate { id := "a", x := 0, y := 0 } 1) ∧
    InBounds (connectPlayer "a" 0 0 "#2563eb") :=
  c1_bounds_invariant { id := "a", x := 0, y := 0 } 1 "a" "#2563eb" 0 0
    (le_refl 0) zero_lt_one (le_refl 0) zero_lt_one

/-! Claim C2. -/

/-- The source velocity accumulation agrees with the specification wording
for every combination of flags and every speed. -/
lemma velocity_eq_spec (inp : InputState) (s : ℝ) :
    velocity inp s = velocitySpec inp s := by
  obtain ⟨u, d, l, r⟩ := inp
  cases u <;> cases d <;> cases l <;> cases r <;>
    simp [velocity, velocitySpec, zero_sub, zero_add, sub_add_cancel,
      neg_ne_zero]

/-- Squared norm identity for the diagonal components. -/
lemma diag_sq (s dt : ℝ) :
    (s * (1 / Real.sqrt 2) * dt) ^ 2 + (-s * (1 / Real.sqrt 2) * dt) ^ 2 =
      (s * dt) ^ 2 := by
  have h2 : Real.sqrt 2 ^ 2 = 2 := Real.sq_sqrt (by norm_num)
  have hne : Real.sqrt 2 ≠ 0 := by
    have := Real.sqrt_pos.mpr (show (0 : ℝ) < 2 by norm_num)
    exact ne_of_gt this
  field_simp

/-- C2: `integrate` computes exactly the velocity described by the spec
(per-flag components, net zero on opposed flags, `1 / sqrt 2` scaling when
both components are non-zero) followed by the per-axis clamped position
update; and for non-negative speed and `dt` the pre-clamp displacement
magnitude of diagonal motion (`up+right`) equals that of single-axis motion
(`right` alone), both being `speed * dt` and never `speed * dt * sqrt 2`. -/
theorem c2_velocity_exact (p : Player) (dt0 : ℝ) (s dt : ℝ) (hs : 0 ≤ s)
    (hdt : 0 ≤ dt) :
    integrate p dt0 = integrateSpec p dt0 ∧
    Real.sqrt
        (((velocity { up := true, right := true } s).1 * dt) ^ 2 +
          ((velocity { up := true, right := true } s).2 * dt) ^ 2) =
      s * dt ∧
    Real.sqrt
        (((velocity { right := true } s).1 * dt) ^ 2 +
          ((velocity { right := true } s).2 * dt) ^ 2) =
      s * dt := by
  refine ⟨?_, ?_, ?_⟩
  · unfold integrate integrateSpec
    rw [velocity_eq_spec]
  · by_cases hs0 : s = 0
    · subst hs0
      simp [velocity]
    · have hvel :
          velocity { up := true, right := true } s =
            (s * (1 / Real.sqrt 2), -s * (1 / Real.sqrt 2)) := by
        simp [velocity, zero_add, zero_sub, hs0, neg_ne_zero]
      rw [hvel]
      simp only
      rw [diag_sq]
      exact Real.sqrt_sq (mul_nonneg hs hdt)
  · have hvel : velocity { right := true } s = (s, 0) := by
      simp [velocity]
    rw [hvel]
    simp only
    rw [show (0 : ℝ) * dt = 0 by ring]
    rw [show ((0 : ℝ)) ^ 2 = 0 by ring, add_zero]
    exact Real.sqrt_sq (mul_nonneg hs hdt)

/-- Witness for C2 at a concrete player, speed 1 and `dt` 1. -/
theorem c2_velocity_exact_witness :
    integrate { id := "a", x := 0, y := 0 } 1 =
      integrateSpec { id := "a", x := 0, y := 0 } 1 ∧
    Real.sqrt
        (((velocity { up := true, right := true } 1).1 * 1) ^ 2 +
          ((velocity { up := true, right := true } 1).2 * 1) ^ 2) =
      1 * 1 ∧
    Real.sqrt
        (((velocity { right := true } 1).1 * 1) ^ 2 +
          ((velocity { right := true } 1).2 * 1) ^ 2) =
      1 * 1 :=
  c2_velocity_exact { id := "a", x := 0, y := 0 } 1 1 1 zero_le_one zero_le_one

/-! Dictionary lemmas. -/

/-- Keys of `dictSet`: unchanged when the key is present, appended
otherwise. -/
lemma keys_dictSet {α : Type} (m : List (String × α)) (k : String) (v : α) :
    (dictSet m k v).map Prod.fst =
      if (m.map Prod.fst).contains k then m.map Prod.fst
      else m.map Prod.fst ++ [k] := by
  unfold dictSet
  split
  · rw [List.map_map]
    apply List.map_congr_left
    intro kv _
    by_cases hk : kv.1 = k
    · simp [hk]
    · simp [hk]
  · rw [List.map_append]
    rfl

/-- Keys of `dictPop` are the original keys with `k` filtered out. -/
lemma keys_dictPop {α : Type} (m : List (String × α)) (k : String) :
    (dictPop m k).map Prod.fst =
      (m.map Prod.fst).filter (fun x => x ≠ k) := by
  unfold dictPop
  induction m with
  | nil => rfl
  | cons kv m ih =>
      simp only [ne_eq, decide_not] at ih ⊢
      by_cases hk : kv.1 = k <;> simp [List.filter_cons, hk, ih]

/-- A successful `dictGet` means the key is among the keys. -/
lemma dictGet_some_contains {α : Type} (m : List (String × α)) (k : String)
    (v : α) (hg : dictGet m k = some v) :
    (m.map Prod.fst).contains k = true := by
  induction m with
  | nil => simp [dictGet] at hg
  | cons kv m ih =>
      by_cases hk : kv.1 = k
      · simp [hk]
      · rw [dictGet, List.find?_cons_of_neg] at hg
        · have hc := ih hg
          simp at hc ⊢
          exact Or.inr hc
        · simp [hk]

/-! Claim C3. -/

/-- C3: the empty hub satisfies the lockstep invariant, and every hub
operation (connect, disconnect, handle_message) preserves it: the `players`
and `sockets` dicts always hold exactly the same ids, each id bound once. -/
theorem c3_lockstep :
    WF Hub.init ∧
    ∀ (h : Hub) (pid : String) (rx ry : ℝ) (color : String) (ws : Socket)
      (data : Msg), WF h →
        WF (h.connect pid rx ry color ws) ∧ WF (h.disconnect pid) ∧
        WF (h.handle_message pid data) := by
  constructor
  · exact ⟨rfl, List.nodup_nil⟩
  · intro h pid rx ry color ws data hwf
    obtain ⟨hkeys, hnodup⟩ := hwf
    refine ⟨?_, ?_, ?_⟩
    · constructor
      · show (dictSet h.players pid _).map Prod.fst =
          (dictSet h.sockets pid ws).map Prod.fst
        rw [keys_dictSet, keys_dictSet, hkeys]
      · show ((dictSet h.players pid _).map Prod.fst).Nodup
        rw [keys_dictSet]
        split
        · exact hnodup
        · rename_i hc
          rw [List.nodup_append]
          refine ⟨hnodup, List.nodup_singleton _, ?_⟩
          intro a ha hb
          rw [List.mem_singleton] at hb
          subst hb
          refine hc ?_
          simpa using ha
    · constructor
      · show (dictPop h.players pid).map Prod.fst =
          (dictPop h.sockets pid).map Prod.fst
        rw [keys_dictPop, keys_dictPop, hkeys]
      · show ((dictPop h.players pid).map Prod.fst).Nodup
        rw [keys_dictPop]
        exact hnodup.filter _
    · unfold Hub.handle_message
      split
      · exact ⟨hkeys, hnodup⟩
      · split
        · exact ⟨hkeys, hnodup⟩
        · split
          · exact ⟨hkeys, hnodup⟩
          · rename_i p hp
            constructor
            · show (dictSet h.players pid _).map Prod.fst =
                h.sockets.map Prod.fst
              rw [keys_dictSet, if_pos (dictGet_some_contains _ _ _ hp),
                hkeys]
            · show ((dictSet h.players pid _).map Prod.fst).Nodup
              rw [keys_dictSet, if_pos (dictGet_some_contains _ _ _ hp)]
              exact hnodup

/-- Witness for C3: the invariant holds initially and after each operation
from the empty hub. -/
theorem c3_lockstep_witness :
    WF (Hub.init.connect "a" 0 0 "#2563eb" 0) ∧ WF (Hub.init.disconnect "a") ∧
    WF (Hub.init.handle_message "a"
      { mtype := some "input", mid := some "a", up := some true, down := none,
        left := none, right := none }) :=
  c3_lockstep.2 Hub.init "a" 0 0 "#2563eb" 0
    { mtype := some "input", mid := some "a", up := some true, down := none,
      left := none, right := none } ⟨rfl, List.nodup_nil⟩

/-- Replacing the binding of `k` in place makes lookup of `k` return the new
value, provided `k` is among the keys. -/
lemma dictGet_replace_self {α : Type} (k : String) (v : α) :
    ∀ m : List (String × α), (m.map Prod.fst).contains k = true →
      dictGet (m.map (fun kv => if kv.1 = k then (k, v) else kv)) k =
        some v := by
  intro m
  induction m with
  | nil => intro hc; simp at hc
  | cons kv m ih =>
      intro hc
      by_cases hk : kv.1 = k
      · simp [dictGet, List.find?, hk]
      · rw [List.map_cons, if_neg hk, dictGet,
          List.find?_cons_of_neg _ (by simp [hk])]
        apply ih
        simp at hc ⊢
        rcases hc with hck | hcm
        · exact absurd hck.symm hk
        · exact hcm

/-- Replacing the binding of `k` in place leaves lookups of other keys
unchanged. -/
lemma dictGet_replace_ne {α : Type} (k k2 : String) (v : α) (hne : k2 ≠ k) :
    ∀ m : List (String × α),
      dictGet (m.map (fun kv => if kv.1 = k then (k, v) else kv)) k2 =
        dictGet m k2 := by
  intro m
  induction m with
  | nil => rfl
  | cons kv m ih =>
      by_cases hk : kv.1 = k
      · rw [List.map_cons, if_pos hk, dictGet,
          List.find?_cons_of_neg _ (by simp [Ne.symm hne])]
        show dictGet _ k2 = dictGet (kv :: m) k2
        rw [ih]
        unfold dictGet
        rw [List.find?_cons_of_neg _ (by simp [hk ▸ Ne.symm hne])]
      · rw [List.map_cons, if_neg hk]
        by_cases hk2 : kv.1 = k2
        · unfold dictGet
          rw [List.find?_cons_of_pos _ (by simp [hk2]),
            List.find?_cons_of_pos _ (by simp [hk2])]
        · unfold dictGet
          rw [List.find?_cons_of_neg _ (by simp [hk2]),
            List.find?_cons_of_neg _ (by simp [hk2])]
          exact ih

/-- Appending a binding for a fresh key makes lookup of that key return the
new value. -/
lemma dictGet_append_self {α : Type} (k : String) (v : α) :
    ∀ m : List (String × α), ¬ (m.map Prod.fst).contains k = true →
      dictGet (m ++ [(k, v)]) k = some v := by
  intro m
  induction m with
  | nil => intro _; simp [dictGet, List.find?]
  | cons kv m ih =>
      intro hc
      have hk : kv.1 ≠ k := by
        intro hk
        exact hc (by simp [hk])
      rw [List.cons_append, dictGet, List.find?_cons_of_neg _ (by simp [hk])]
      apply ih
      intro hc2
      apply hc
      simp at hc2 ⊢
      exact Or.inr hc2

/-- Appending a binding for another key leaves lookups unchanged. -/
lemma dictGet_append_ne {α : Type} (k k2 : String) (v : α) (hne : k2 ≠ k) :
    ∀ m : List (String × α), dictGet (m ++ [(k, v)]) k2 = dictGet m k2 := by
  intro m
  induction m with
  | nil =>
      rw [List.nil_append, dictGet,
        List.find?_cons_of_neg _ (by simp [Ne.symm hne])]
      rfl
  | cons kv m ih =>
      by_cases hk2 : kv.1 = k2
      · rw [List.cons_append]
        unfold dictGet
        rw [List.find?_cons_of_pos _ (by simp [hk2]),
          List.find?_cons_of_pos _ (by simp [hk2])]
      · rw [List.cons_append]
        unfold dictGet
        rw [List.find?_cons_of_neg _ (by simp [hk2]),
          List.find?_cons_of_neg _ (by simp [hk2])]
        exact ih

/-- Looking up the key just set yields the new value, whether it replaced an
existing binding or was appended. -/
lemma dictGet_dictSet_self {α : Type} (m : List (String × α)) (k : String)
    (v : α) : dictGet (dictSet m k v) k = some v := by
  unfold dictSet
  split
  · rename_i hc
    exact dictGet_replace_self k v m hc
  · rename_i hc
    exact dictGet_append_self k v m hc

/-- Looking up a different key after `dictSet` is unchanged. -/
lemma dictGet_dictSet_ne {α : Type} (m : List (String × α)) (k k2 : String)
    (v : α) (hne : k2 ≠ k) : dictGet (dictSet m k v) k2 = dictGet m k2 := by
  unfold dictSet
  split
  · exact dictGet_replace_ne k k2 v hne m
  · exact dictGet_append_ne k k2 v hne m

/-- Looking up the popped key fails. -/
lemma dictGet_dictPop_self {α : Type} (m : List (String × α)) (k : String) :
    dictGet (dictPop m k) k = none := by
  unfold dictGet dictPop
  rw [Option.map_eq_none', List.find?_eq_none]
  intro kv hkv
  have := (List.mem_filter.mp hkv).2
  simp at this ⊢
  exact this

/-- Looking up a different key after `dictPop` is unchanged. -/
lemma dictGet_dictPop_ne {α : Type} (m : List (String × α)) (k k2 : String)
    (hne : k2 ≠ k) : dictGet (dictPop m k) k2 = dictGet m k2 := by
  unfold dictPop dictGet
  induction m with
  | nil => rfl
  | cons kv m ih =>
      rw [List.filter_cons]
      by_cases hk : kv.1 = k
      · rw [if_neg (by simp [hk]),
          List.find?_cons_of_neg _ (by simp [hk ▸ Ne.symm hne])]
        exact ih
      · rw [if_pos (by simp [hk])]
        by_cases hk2 : kv.1 = k2
        · rw [List.find?_cons_of_pos _ (by simp [hk2]),
            List.find?_cons_of_pos _ (by simp [hk2])]
        · rw [List.find?_cons_of_neg _ (by simp [hk2]),
            List.find?_cons_of_neg _ (by simp [hk2])]
          exact ih

/-- Popping an absent key leaves the dict unchanged. -/
lemma dictPop_absent {α : Type} (m : List (String × α)) (k : String)
    (hg : dictGet m k = none) : dictPop m k = m := by
  unfold dictPop
  rw [List.filter_eq_self]
  intro kv hkv
  unfold dictGet at hg
  rw [Option.map_eq_none', List.find?_eq_none] at hg
  have := hg kv hkv
  simp at this ⊢
  exact this

/-! Claim C4. -/

/-- C4: `handle_message(pid, data)` with a non-input type, a mismatched id,
or a vanished player changes nothing: the hub (both dicts, hence every
player) is returned unchanged and no error is raised. -/
theorem c4_invalid_message_noop (h : Hub) (pid : String) (data : Msg)
    (hbad : data.mtype ≠ some "input" ∨ data.mid ≠ some pid ∨
      dictGet h.players pid = none) :
    h.handle_message pid data = h := by
  unfold Hub.handle_message
  rcases hbad with h1 | h2 | h3
  · rw [if_pos h1]
  · by_cases h1 : data.mtype ≠ some "input"
    · rw [if_pos h1]
    · rw [if_neg h1, if_pos h2]
  · by_cases h1 : data.mtype ≠ some "input"
    · rw [if_pos h1]
    · rw [if_neg h1]
      by_cases h2 : data.mid ≠ some pid
      · rw [if_pos h2]
      · rw [if_neg h2, h3]

/-- Witness for C4 at three concrete invalid messages. -/
theorem c4_invalid_message_noop_witness :
    Hub.init.handle_message "a"
      { mtype := some "hello", mid := some "a", up := none, down := none,
        left := none, right := none } = Hub.init :=
  c4_invalid_message_noop Hub.init "a"
    { mtype := some "hello", mid := some "a", up := none, down := none,
      left := none, right := none }
    (Or.inl (by simp))

/-! Claim C6. -/

/-- C6: a valid `input` message replaces the whole `InputState` of exactly
the addressed player with the four coerced flags (absent flags become
false), keeps all its other fields (`id`, `x`, `y`, `speed`, `label`,
`color`), leaves every other player and the sockets dict untouched. -/
theorem c6_input_replace (h : Hub) (pid : String) (data : Msg) (p : Player)
    (ht : data.mtype = some "input") (hid : data.mid = some pid)
    (hp : dictGet h.players pid = some p) :
    (h.handle_message pid data).sockets = h.sockets ∧
    dictGet (h.handle_message pid data).players pid =
      some { id := p.id, x := p.x, y := p.y, speed := p.speed,
             label := p.label, color := p.color,
             input := { up := data.up.getD false, down := data.down.getD false,
                        left := data.left.getD false,
                        right := data.right.getD false } } ∧
    ∀ k, k ≠ pid →
      dictGet (h.handle_message pid data).players k = dictGet h.players k := by
  have hm : h.handle_message pid data =
      { h with
        players := dictSet h.players pid
          { p with
            input := { up := data.up.getD false, down := data.down.getD false,
                       left := data.left.getD false,
                       right := data.right.getD false } } } := by
    unfold Hub.handle_message
    rw [if_neg (by simp [ht]), if_neg (by simp [hid]), hp]
  rw [hm]
  refine ⟨rfl, ?_, ?_⟩
  · exact dictGet_dictSet_self _ _ _
  · intro k hk
    exact dictGet_dictSet_ne _ _ _ _ hk

/-- Witness for C6 on a one-player hub and a message leaving the `down`,
`left` and `right` fields absent. -/
theorem c6_input_replace_witness :
    ((⟨[("a", { id := "a", x := 0, y := 0 })], [("a", 7)]⟩ :
        Hub).handle_message "a"
      { mtype := some "input", mid := some "a", up := some true, down := none,
        left := none, right := none }).sockets = [("a", 7)] ∧
    dictGet ((⟨[("a", { id := "a", x := 0, y := 0 })], [("a", 7)]⟩ :
        Hub).handle_message "a"
      { mtype := some "input", mid := some "a", up := some true, down := none,
        left := none, right := none }).players "a" =
      some { id := "a", x := (0 : ℝ), y := (0 : ℝ),
             speed := DEFAULT_PLAYER_SPEED, label := "P", color := "#2563eb",
             input := { up := true, down := false, left := false,
                        right := false } } ∧
    ∀ k, k ≠ "a" →
      dictGet ((⟨[("a", { id := "a", x := 0, y := 0 })], [("a", 7)]⟩ :
          Hub).handle_message "a"
        { mtype := some "input", mid := some "a", up := some true,
          down := none, left := none, right := none }).players k =
        dictGet [("a", { id := "a", x := 0, y := 0 })] k :=
  c6_input_replace ⟨[("a", { id := "a", x := 0, y := 0 })], [("a", 7)]⟩ "a"
    { mtype := some "input", mid := some "a", up := some true, down := none,
      left := none, right := none }
    { id := "a", x := 0, y := 0 } rfl rfl rfl

/-! Claim C8. -/

/-- C8: `disconnect(pid)` on an absent id is a state no-op and raises
nothing; on a present id it removes exactly that player and that socket,
leaving every other binding untouched. -/
theorem c8_disconnect_idempotent (h : Hub) (pid : String) :
    ((dictGet h.players pid = none ∧ dictGet h.sockets pid = none) →
      h.disconnect pid = h) ∧
    dictGet (h.disconnect pid).players pid = none ∧
    dictGet (h.disconnect pid).sockets pid = none ∧
    ∀ k, k ≠ pid →
      dictGet (h.disconnect pid).players k = dictGet h.players k ∧
      dictGet (h.disconnect pid).sockets k = dictGet h.sockets k := by
  refine ⟨?_, dictGet_dictPop_self _ _, dictGet_dictPop_self _ _, ?_⟩
  · rintro ⟨hp, hs⟩
    unfold Hub.disconnect
    rw [dictPop_absent _ _ hp, dictPop_absent _ _ hs]
  · intro k hk
    exact ⟨dictGet_dictPop_ne _ _ _ hk, dictGet_dictPop_ne _ _ _ hk⟩

/-- Witness for C8: disconnecting an id absent from the empty hub changes
nothing. -/
theorem c8_disconnect_idempotent_witness :
    Hub.init.disconnect "a" = Hub.init ∧
    dictGet (Hub.init.disconnect "a").players "a" = none :=
  ⟨(c8_disconnect_idempotent Hub.init "a").1 ⟨rfl, rfl⟩,
    (c8_disconnect_idempotent Hub.init "a").2.1⟩

/-! Claim C7. -/

/-- C7: during a broadcast no send failure escapes (`_safe_send` returns
normally for every socket, failing or not), world state is unchanged, and
every registered socket gets exactly one send attempt regardless of which
sockets fail — so one bad socket never blocks the others or the loop. -/
theorem c7_broadcast_isolation (fails : Socket → Bool) (h : Hub) :
    (Hub.broadcast_state fails h).1 = h ∧
    (∀ ws : Socket, _safe_send fails ws = Except.ok ()) ∧
    (Hub.broadcast_state fails h).2.length = h.sockets.length ∧
    ∀ kv ∈ h.sockets,
      (kv.2, Except.ok ()) ∈ (Hub.broadcast_state fails h).2 := by
  have hsafe : ∀ ws : Socket, _safe_send fails ws = Except.ok () := by
    intro ws
    unfold _safe_send send
    by_cases hf : fails ws
    · rw [if_pos hf]
    · rw [if_neg hf]
  refine ⟨rfl, hsafe, List.length_map _ _, ?_⟩
  intro kv hkv
  unfold Hub.broadcast_state
  have hx : (kv.2, Except.ok ()) =
      (fun kv : String × Socket => (kv.2, _safe_send fails kv.2)) kv := by
    show (kv.2, Except.ok ()) = (kv.2, _safe_send fails kv.2)
    rw [hsafe kv.2]
  rw [hx]
  exact List.mem_map_of_mem _ hkv

/-- Witness for C7 on a hub with two sockets of which one always fails. -/
theorem c7_broadcast_isolation_witness :
    (Hub.broadcast_state (fun ws => ws == 5)
      (⟨[], [("a", 5), ("b", 6)]⟩ : Hub)).1 = ⟨[], [("a", 5), ("b", 6)]⟩ ∧
    ((5 : Socket), Except.ok ()) ∈
      (Hub.broadcast_state (fun ws => ws == 5)
        (⟨[], [("a", 5), ("b", 6)]⟩ : Hub)).2 ∧
    ((6 : Socket), Except.ok ()) ∈
      (Hub.broadcast_state (fun ws => ws == 5)
        (⟨[], [("a", 5), ("b", 6)]⟩ : Hub)).2 :=
  ⟨(c7_broadcast_isolation (fun ws => ws == 5) ⟨[], [("a", 5), ("b", 6)]⟩).1,
    (c7_broadcast_isolation (fun ws => ws == 5)
      ⟨[], [("a", 5), ("b", 6)]⟩).2.2.2 ("a", 5) (by simp),
    (c7_broadcast_isolation (fun ws => ws == 5)
      ⟨[], [("a", 5), ("b", 6)]⟩).2.2.2 ("b", 6) (by simp)⟩

/-! Claim C5. -/

/-- Counterexample to C5: in `_broadcast_state` the snapshot is built from
`self.players` and serialized with no lock held (the method contains no
`async with self.lock`), so the claim that snapshot serialization happens
inside the critical section is false on the code. -/
theorem c5_counterexample :
    worldAccessLocked 0 broadcastStateTrace = false := by rfl

/-- C5 amended: `_step` and `handle_message` read and mutate world state
only under the critical section, every mutation of world state in `connect`,
`disconnect` and `_broadcast_state` is under it, and no operation performs
network I/O while holding the lock; but `_broadcast_state` reads and
serializes the snapshot outside the critical section (as are the welcome
snapshot read in `connect` and the sockets reads of the event
broadcasts). -/
theorem c5_amended_lock_discipline :
    worldAccessLocked 0 stepTrace = true ∧
    worldAccessLocked 0 handleMessageTrace = true ∧
    mutationsLocked 0 connectTrace = true ∧
    mutationsLocked 0 disconnectTrace = true ∧
    mutationsLocked 0 broadcastStateTrace = true ∧
    mutationsLocked 0 stepTrace = true ∧
    mutationsLocked 0 handleMessageTrace = true ∧
    sendsOutsideLock 0 stepTrace = true ∧
    sendsOutsideLock 0 broadcastStateTrace = true ∧
    sendsOutsideLock 0 connectTrace = true ∧
    sendsOutsideLock 0 disconnectTrace = true ∧
    sendsOutsideLock 0 handleMessageTrace = true ∧
    worldAccessLocked 0 broadcastStateTrace = false := by
  decide

/-! Claim C9. -/

/-- C9 (code bug): the claim says `stop()` while the loop runs cancels it
cooperatively and returns without raising, clearing the task handle; but
`Hub.stop` enters `with contextlib.suppress(asyncio.CancelledError)` and the
module never imports `contextlib` (main.py lines 25-36), so the name lookup
raises `NameError` and the handle is never cleared. -/
theorem c9_stop_raises_nameError :
    Hub.stop (some ()) = Except.error (PyErr.nameError "contextlib") ∧
    Hub.stop none = Except.ok none := by
  constructor
  · rfl
  · rfl

/-! Claim C10. -/

/-- Counterexample to C10: when the random id generator yields the same id
"aaaaaa" for both `connect()` calls (a possible outcome, since ids are six
independent random characters with no collision retry), the two ids are not
distinct, the world ends with one entry instead of two, and the player and
socket of the first connection are overwritten by the second. -/
theorem c10_counterexample :
    ¬ (((Hub.init.connect "aaaaaa" 0 0 "#2563eb" 0).connect "aaaaaa" 0 0
        "#2563eb" 1).players.length = 2) ∧
    ((Hub.init.connect "aaaaaa" 0 0 "#2563eb" 0).connect "aaaaaa" 0 0
      "#2563eb" 1).players.length = 1 ∧
    dictGet ((Hub.init.connect "aaaaaa" 0 0 "#2563eb" 0).connect "aaaaaa" 0 0
      "#2563eb" 1).sockets "aaaaaa" = some 1 := by
  refine ⟨?_, rfl, rfl⟩
  intro hlen
  have h1 : ((Hub.init.connect "aaaaaa" 0 0 "#2563eb" 0).connect "aaaaaa" 0 0
      "#2563eb" 1).players.length = 1 := rfl
  rw [h1] at hlen
  exact absurd hlen (by decide)

/-- C10 amended: whenever the two generator outcomes are distinct ids, two
`connect()` calls from the empty hub leave exactly two entries, each id bound
to its own player and socket, neither registration lost; on a colliding
outcome the second call overwrites the first (no collision retry in the
code). -/
theorem c10_two_connects (pid1 pid2 : String) (rx1 ry1 rx2 ry2 : ℝ)
    (c1 c2 : String) (ws1 ws2 : Socket) (hne : pid1 ≠ pid2) :
    ((Hub.init.connect pid1 rx1 ry1 c1 ws1).connect pid2 rx2 ry2 c2
        ws2).players.length = 2 ∧
    dictGet ((Hub.init.connect pid1 rx1 ry1 c1 ws1).connect pid2 rx2 ry2 c2
        ws2).players pid1 = some (connectPlayer pid1 rx1 ry1 c1) ∧
    dictGet ((Hub.init.connect pid1 rx1 ry1 c1 ws1).connect pid2 rx2 ry2 c2
        ws2).players pid2 = some (connectPlayer pid2 rx2 ry2 c2) ∧
    dictGet ((Hub.init.connect pid1 rx1 ry1 c1 ws1).connect pid2 rx2 ry2 c2
        ws2).sockets pid1 = some ws1 ∧
    dictGet ((Hub.init.connect pid1 rx1 ry1 c1 ws1).connect pid2 rx2 ry2 c2
        ws2).sockets pid2 = some ws2 := by
  have hb : (pid1 == pid2) = false := by
    rw [beq_eq_false_iff_ne]
    exact hne
  have hstep : Hub.init.connect pid1 rx1 ry1 c1 ws1 =
      (⟨[(pid1, connectPlayer pid1 rx1 ry1 c1)], [(pid1, ws1)]⟩ : Hub) := rfl
  rw [hstep]
  have hcp : (([(pid1, connectPlayer pid1 rx1 ry1 c1)].map
      Prod.fst).contains pid2) = false := by
    simp [hb]
    exact fun hx => absurd hx.symm hne
  have hcs : (([(pid1, ws1)].map Prod.fst).contains pid2) = false := by
    simp [hb]
    exact fun hx => absurd hx.symm hne
  unfold Hub.connect dictSet
  rw [hcp, hcs]
  simp only [Bool.false_eq_true, if_false, List.cons_append, List.nil_append]
  refine ⟨rfl, ?_, ?_, ?_, ?_⟩
  · unfold dictGet
    rw [List.find?_cons_of_pos _ (by simp)]
    rfl
  · unfold dictGet
    rw [List.find?_cons_of_neg _ (by simp; exact hne),
      List.find?_cons_of_pos _ (by simp)]
    rfl
  · unfold dictGet
    rw [List.find?_cons_of_pos _ (by simp)]
    rfl
  · unfold dictGet
    rw [List.find?_cons_of_neg _ (by simp; exact hne),
      List.find?_cons_of_pos _ (by simp)]
    rfl

/-- Witness for the amended C10 at two concrete distinct ids. -/
theorem c10_two_connects_witness :
    ((Hub.init.connect "aaaaaa" 0 0 "#2563eb" 0).connect "bbbbbb" 0 0
        "#059669" 1).players.length = 2 ∧
    dictGet ((Hub.init.connect "aaaaaa" 0 0 "#2563eb" 0).connect "bbbbbb" 0 0
        "#059669" 1).players "aaaaaa" =
      some (connectPlayer "aaaaaa" 0 0 "#2563eb") ∧
    dictGet ((Hub.init.connect "aaaaaa" 0 0 "#2563eb" 0).connect "bbbbbb" 0 0
        "#059669" 1).players "bbbbbb" =
      some (connectPlayer "bbbbbb" 0 0 "#059669") ∧
    dictGet ((Hub.init.connect "aaaaaa" 0 0 "#2563eb" 0).connect "bbbbbb" 0 0
        "#059669" 1).sockets "aaaaaa" = some 0 ∧
    dictGet ((Hub.init.connect "aaaaaa" 0 0 "#2563eb" 0).connect "bbbbbb" 0 0
        "#059669" 1).sockets "bbbbbb" = some 1 :=
  c10_two_connects "aaaaaa" "bbbbbb" 0 0 0 0 "#2563eb" "#059669" 0 1
    (by decide)

end MPServer
